import Mathlib

/-!
# NeopixelKalimba — verification of the trigger/event pipeline

Shallow embedding of the NeopixelKalimba firmware (ChrisVeigl/NeopixelKalimba):

* the sender sketch `src/PiezoReader/PiezoReader.ino` (the FSR/two-filter
  variant whose constants are `PIEZO_THRESHOLD 8`, `PIEZO_IMPACT_VAL 20`,
  `PIEZO_TRIGGER_MAXVALUE 1000`, `PIEZO_DECAY 10`,
  `SENSOR_THRESHOLD = FSR_THRESHOLD = 40`): per-channel hysteresis envelope,
  the two group registers and the change-driven Serial1 transmission;
* the receiver `src/wavefx.cpp`: the effective trigger state with its
  stale-link fallback (`processPlayers` lines 290–292 / 352–354), the
  per-line trigger state machine with its MIDI and wave-parameter effects
  (`processPlayers`), the cross-actor coincidence scan (`processBigWaves`),
  and the tonescale/mode switching that gates the big-wave feature
  (`updateMode`, `wavefx_loop`).

Machine integers are modelled as `Nat`/`Int` with explicit reductions
modulo `2^32` where the C code relies on `uint32_t` wraparound or on the
Arduino `abs` macro applied to a 32-bit `long`.
-/

/-! ## 32-bit arithmetic helpers (uint32_t / long semantics) -/

/-- `2^32`, the modulus of `uint32_t` arithmetic. -/
def u32Mod : Nat := 4294967296

/-- `a - b` on `uint32_t`: wraparound subtraction, as in `now - timestamp`. -/
def sub32 (a b : Nat) : Nat := (u32Mod + a % u32Mod - b % u32Mod) % u32Mod

/-- Reinterpret a `uint32_t` value as a signed 32-bit `long`,
as done by the cast `(long)(t1 - t2)` in `processBigWaves`. -/
def int32OfU32 (d : Nat) : Int :=
  if d % u32Mod < 2147483648 then ((d % u32Mod : Nat) : Int)
  else ((d % u32Mod : Nat) : Int) - 4294967296

/-- Wrap an integer into the signed 32-bit range (two's-complement overflow). -/
def wrap32 (x : Int) : Int := (x + 2147483648) % 4294967296 - 2147483648

/-- The Arduino `abs(x)` macro `((x)>0?(x):-(x))` on a 32-bit `long`:
negation overflows for `-2^31`, which we keep faithful via `wrap32`. -/
def cAbs (v : Int) : Int := if v > 0 then v else wrap32 (-v)

/-! ## Sender: PiezoReader.ino

Per-channel hysteresis envelope (`loop`, lines 279–289 of the sketch).
The conditioned impact value `sensorVal = signal - baseline` (output of the
two biquad low-passes) is taken as the input sample of a tick; the claims
under verification are about the envelope and the registers, not about the
filter numerics. -/

/-- `#define PIEZO_THRESHOLD 8` — defined in the sketch but NOT used in the
envelope comparison (the sketch compares against `SENSOR_THRESHOLD`). -/
def PIEZO_THRESHOLD : Int := 8

/-- `#define FSR_THRESHOLD 40`. -/
def FSR_THRESHOLD : Int := 40

/-- `#define SENSOR_THRESHOLD FSR_THRESHOLD` — the threshold actually used. -/
def SENSOR_THRESHOLD : Int := FSR_THRESHOLD

/-- `#define PIEZO_IMPACT_VAL 20`. -/
def PIEZO_IMPACT_VAL : Int := 20

/-- `#define PIEZO_TRIGGER_MAXVALUE 1000`. -/
def PIEZO_TRIGGER_MAXVALUE : Int := 1000

/-- `#define PIEZO_DECAY 10`. -/
def PIEZO_DECAY : Int := 10

/-- One sampling tick of one channel's envelope (`loop` lines 279–289):
impact accumulation clamped by `PIEZO_TRIGGER_MAXVALUE`, then decay.
Returns the accumulator `piezoTrigger[i]` after the tick and the trigger
bit written into the channel's group register (`true` = bit set). -/
def piezoChannelTick (sensorVal acc : Int) : Int × Bool :=
  let acc1 := if sensorVal > SENSOR_THRESHOLD ∧ acc < PIEZO_TRIGGER_MAXVALUE
              then acc + PIEZO_IMPACT_VAL else acc
  if acc1 > PIEZO_DECAY then (acc1 - PIEZO_DECAY, true) else (0, false)

/-- Trace of one channel over a sample sequence: the accumulator value and
trigger bit after each tick, starting from accumulator `acc`. -/
def piezoRun : List Int → Int → List (Int × Bool)
  | [], _ => []
  | s :: rest, acc =>
      let r := piezoChannelTick s acc
      r :: piezoRun rest r.1

/-- Sender state: the ten envelope accumulators `piezoTrigger[]`, the two
group registers, the last transmitted value of each register, and (for the
proofs) the lists of bytes transmitted so far on each register. -/
structure SenderState where
  acc : List Int
  g1 : Nat
  g2 : Nat
  last1 : Nat
  last2 : Nat
  sent1 : List Nat
  sent2 : List Nat
deriving DecidableEq, Repr

/-- `*actTriggerGroup &= ~(1 << b)` on a `uint8_t`. -/
def clearBitU8 (g b : Nat) : Nat := g &&& (255 ^^^ (1 <<< b))

/-- `*actTriggerGroup |= (1 << b)` on a `uint8_t`. -/
def setBitU8 (g b : Nat) : Nat := g ||| (1 <<< b)

/-- One iteration of the sender's channel loop body for channel `i`
(`loop` lines 269–294): run the envelope tick and fold the trigger bit
into bit `i >> 1` of group 2 when `i` is odd, group 1 when `i` is even. -/
def senderChannel (st : SenderState) (i : Nat) (sensorVal : Int) : SenderState :=
  let r := piezoChannelTick sensorVal (st.acc.getD i 0)
  let b := i / 2
  let st := { st with acc := st.acc.set i r.1 }
  if i % 2 = 1 then
    { st with g2 := if r.2 then setBitU8 st.g2 b else clearBitU8 st.g2 b }
  else
    { st with g1 := if r.2 then setBitU8 st.g1 b else clearBitU8 st.g1 b }

/-- `#define NUMBER_OF_PLAYERS 5` (sender side). -/
def SENDER_PLAYERS : Nat := 5

/-- The sender's per-tick channel loop over all `NUMBER_OF_PLAYERS * 2`
channels, with `samples` the conditioned impact values of this tick. -/
def senderTick (samples : List Int) (st : SenderState) : SenderState :=
  (List.range (SENDER_PLAYERS * 2)).foldl
    (fun s i => senderChannel s i (samples.getD i 0)) st

/-- The reporting block (`loop` lines 302–310): each group register is
written to Serial1 as one byte iff it differs from the last transmitted
value, which is then updated. -/
def senderReport (st : SenderState) : SenderState :=
  let st := if st.last1 ≠ st.g1
            then { st with sent1 := st.sent1 ++ [st.g1], last1 := st.g1 } else st
  if st.last2 ≠ st.g2
  then { st with sent2 := st.sent2 ++ [st.g2], last2 := st.g2 } else st

/-- One full iteration of the sender's `loop()`: sample all channels, then
report when the 10 ms reporting period has elapsed (`reportNow`, an input
here since it is purely time-driven). -/
def senderLoopStep (samples : List Int) (reportNow : Bool) (st : SenderState) :
    SenderState :=
  let st1 := senderTick samples st
  if reportNow then senderReport st1 else st1

/-- Initial sender state: `piezoTrigger[]={0}`, `trigger1Group=0`,
`lastTrigger1Group=0`, `trigger2Group=0x80`, `lastTrigger2Group=0x80`. -/
def senderInit : SenderState :=
  { acc := List.replicate (SENDER_PLAYERS * 2) 0
  , g1 := 0, g2 := 128, last1 := 0, last2 := 128
  , sent1 := [], sent2 := [] }

/-- Run the sender from its initial state over a list of loop iterations,
each given by the tick's samples and its `reportNow` flag. -/
def runSender (inputs : List (List Int × Bool)) : SenderState :=
  inputs.foldl (fun st p => senderLoopStep p.1 p.2 st) senderInit

/-- The sender state at an arbitrary reporting tick: any history of loop
iterations, then the current tick's channel scan, just before the
reporting block runs. -/
def senderBeforeReport (inputs : List (List Int × Bool)) (samples : List Int) :
    SenderState :=
  senderTick samples (runSender inputs)

/-! ## Receiver: wavefx.cpp — constants and tonescales -/

/-- `#define NUMBER_OF_PLAYERS 5` (wavefx.h). -/
def NUMBER_OF_PLAYERS : Nat := 5

/-- `#define WIDTH 8`. -/
def WIDTH : Int := 8

/-- `#define PLAYER_MAX_YPOS 18`. -/
def PLAYER_MAX_YPOS : Int := 18

/-- `#define MIDINOTE_VELOCITY 120`. -/
def MIDINOTE_VELOCITY : Nat := 120

/-- `#define BIGWAVE_TIME_THRESHOLD 20` (ms). -/
def BIGWAVE_TIME_THRESHOLD : Int := 20

/-- `#define EXTERNAL_TRIGGER_ACTIVE_PERIOD 2000` (ms). -/
def EXTERNAL_TRIGGER_ACTIVE_PERIOD : Nat := 2000

/-- `#define BIGWAVE_MIDI_CHANNEL 7`. -/
def BIGWAVE_MIDI_CHANNEL : Nat := 7

/-- `#define BIGWAVE_MIDINOTE_DURATION 5000` (ms). -/
def BIGWAVE_MIDINOTE_DURATION : Nat := 5000

/-- Arduino `LOW`. -/
def LOW : Nat := 0

/-- Arduino `HIGH`. -/
def HIGH : Nat := 1

/-- The three sequencing modes `MODE_RANDOM`, `MODE_TEAM`, `MODE_CANON`
(values 0/1/2 in wavefx.h; the `tonescales[]` table only ever holds these). -/
inductive Mode where
  | random
  | team
  | canon
deriving DecidableEq, Repr

/-- `tonescalePentatonicMajor[] = {60, 62, 64, 67, 69, 72, -1}` — six notes
plus the `-1` end sentinel (colors&tonescales.h line 16). -/
def tonescalePentatonicMajor : List Int := [60, 62, 64, 67, 69, 72, -1]

/-- The `mode` column of the `tonescales[]` table in colors&tonescales.h:
Pentatonic Major (RANDOM), Whole Tone (RANDOM), Kalimba Team 1 (TEAM),
Kalimba Team 2 (TEAM), Kalimba Canon 1 (CANON). -/
def tonescaleModes : List Mode :=
  [Mode.random, Mode.random, Mode.team, Mode.team, Mode.canon]

/-- `numTonescales` = number of entries of `tonescales[]`. -/
def numTonescales : Nat := tonescaleModes.length

/-- `getTonescaleSize` (utils.cpp): counts entries before the `-1` sentinel. -/
def getTonescaleSize (scale : List Int) : Nat :=
  (scale.takeWhile (fun t => t ≠ -1)).length

/-- `getMaxTone` (utils.cpp): maximum entry before the sentinel, seeded 0. -/
def getMaxTone (scale : List Int) : Int :=
  (scale.takeWhile (fun t => t ≠ -1)).foldl (fun m t => if t > m then t else m) 0

/-- `getMinTone` (utils.cpp): minimum entry before the sentinel, seeded 127. -/
def getMinTone (scale : List Int) : Int :=
  (scale.takeWhile (fun t => t ≠ -1)).foldl (fun m t => if t < m then t else m) 127

/-- Arduino `map(x, in_min, in_max, out_min, out_max)` with C `long`
division (truncation toward zero, hence `Int.tdiv`). -/
def arduinoMap (x inMin inMax outMin outMax : Int) : Int :=
  Int.tdiv ((x - inMin) * (outMax - outMin)) (inMax - inMin) + outMin

/-- MIDI messages emitted through `usbMIDI` (note, velocity, channel). -/
inductive MidiMsg where
  | noteOn (note : Int) (vel ch : Nat)
  | noteOff (note : Int) (vel ch : Nat)
deriving DecidableEq, Repr

/-! ## Receiver: TriggerLink — effective trigger state with fallback -/

/-- Link state for one register on the receiver: last received flag byte
and its reception timestamp (`trigger1Flags` / `trigger1FlagsUpdateTime`,
wavefx.cpp lines 33–34; same for trigger 2). -/
structure LinkRegState where
  flags : Nat
  updateTime : Nat
deriving DecidableEq, Repr

/-- The Serial1 drain of `wavefx_loop` (lines 648–660) applied to one
received byte: bit 7 selects which register's flags/timestamp to update. -/
def receiveSerialByte (now : Nat) (byte : Nat) (reg1 reg2 : LinkRegState) :
    LinkRegState × LinkRegState :=
  if byte.testBit 7 then (reg1, { flags := byte, updateTime := now })
  else ({ flags := byte, updateTime := now }, reg2)

/-- Effective trigger state of one actor's line (`processPlayers` lines
290–292 and 352–354): start from the raw `digitalRead` of the line's pin;
while the register's last reception is fresher than
`EXTERNAL_TRIGGER_ACTIVE_PERIOD`, override it with the received flag bit
of this player, active-low (`bit set ⇒ LOW`). -/
def effTriggerState (pinState : Nat) (now : Nat) (reg : LinkRegState)
    (playerId : Nat) : Nat :=
  if sub32 now reg.updateTime < EXTERNAL_TRIGGER_ACTIVE_PERIOD then
    if reg.flags.testBit playerId then LOW else HIGH
  else pinState

/-! ## Receiver: per-line trigger state machine (`processPlayers`) -/

/-- The wave-parameter profiles installed by `setWaveParameters` calls in
`processPlayers`: `sustain` is the activation profile
(`WAVE_DAMPING_*_TRIGGER`, slower energy decay), `release` the
deactivation profile (`WAVE_DAMPING_*_RELEASE`, faster decay). -/
inductive WaveProfile where
  | sustain
  | release
deriving DecidableEq, Repr

/-- State of one trigger line of one player: the `triggerNActive` flag
(an `int` holding 0 or 1), the chosen `triggerNNote`, and the
`triggerNTimestamp` of the last activation. -/
structure PlayerLineState where
  active : Nat
  note : Int
  timestamp : Nat
deriving DecidableEq, Repr

/-- Globals of `processPlayers` shared by all actors and lines:
`lastUserActivity` and the TEAM-mode counter `teamToneProgress`. -/
structure SharedState where
  lastUserActivity : Nat
  teamProgress : Nat
deriving DecidableEq, Repr

/-- Externally visible effects of one `processPlayers` line block:
MIDI messages sent, the wave-parameter profile installed (if any), and the
`triggerWave` ripple position requested (if any). The `setf`/`addf`
energy deposits into the wave layers accompany `waveTrigger` and are pure
rendering output. -/
structure LineEffects where
  midi : List MidiMsg
  profile : Option WaveProfile
  waveTrigger : Option (Int × Int)
deriving DecidableEq, Repr

/-- Result of one line block: new line state, new per-player CANON counter
`toneProgress`, new shared state, and the effects. -/
structure LineResult where
  line : PlayerLineState
  toneProgress : Nat
  shared : SharedState
  fx : LineEffects
deriving DecidableEq, Repr

/-- One trigger-line block of `processPlayers` (lines 294–347 for line 1,
356–408 for line 2; the blocks are identical except that line 1 maps the
RANDOM vertical position to the bottom half and transposes its RANDOM note
an octave down). `trigState` is the effective trigger level, `randVal` the
`random(0,1023)` draw used in RANDOM mode, `mode` and `scale` the shared
tonescale selection (identical for all players, set by `wavefx_setup` /
`updateMode`). -/
def processTriggerLine (now : Nat) (mode : Mode) (scale : List Int)
    (midiChannel : Nat) (isLine1 : Bool) (randVal : Int) (trigState : Nat)
    (ln : PlayerLineState) (toneProgress : Nat) (sh : SharedState) :
    LineResult :=
  let size := getTonescaleSize scale
  if trigState = LOW ∧ ln.active = 0 then
    match mode with
    | Mode.random =>
        let vert := if isLine1
          then arduinoMap randVal 0 1023 5 (PLAYER_MAX_YPOS.tdiv 2)
          else arduinoMap randVal 0 1023 (PLAYER_MAX_YPOS.tdiv 2) PLAYER_MAX_YPOS
        let idx := arduinoMap randVal 0 1023 0 ((size : Int) - 1)
        let note0 := scale.getD idx.toNat 0
        let note := if isLine1 then note0 - 12 else note0
        { line := { active := 1, note := note, timestamp := now }
        , toneProgress := toneProgress
        , shared := { sh with lastUserActivity := now }
        , fx := { midi := [MidiMsg.noteOn note MIDINOTE_VELOCITY midiChannel]
                , profile := some WaveProfile.sustain
                , waveTrigger := some (WIDTH.tdiv 2, vert) } }
    | Mode.team =>
        let note := scale.getD (sh.teamProgress % size) 0
        let tp1 := sh.teamProgress + 1
        let tp := if tp1 ≥ size then 0 else tp1
        let vert := arduinoMap note (getMinTone scale) (getMaxTone scale) 5 PLAYER_MAX_YPOS
        { line := { active := 1, note := note, timestamp := now }
        , toneProgress := toneProgress
        , shared := { lastUserActivity := now, teamProgress := tp }
        , fx := { midi := [MidiMsg.noteOn note MIDINOTE_VELOCITY midiChannel]
                , profile := some WaveProfile.sustain
                , waveTrigger := some (WIDTH.tdiv 2, vert) } }
    | Mode.canon =>
        let note := scale.getD (toneProgress % size) 0
        let tp1 := toneProgress + 1
        let tp := if tp1 ≥ size then 0 else tp1
        let vert := arduinoMap note (getMinTone scale) (getMaxTone scale) 5 PLAYER_MAX_YPOS
        { line := { active := 1, note := note, timestamp := now }
        , toneProgress := tp
        , shared := { sh with lastUserActivity := now }
        , fx := { midi := [MidiMsg.noteOn note MIDINOTE_VELOCITY midiChannel]
                , profile := some WaveProfile.sustain
                , waveTrigger := some (WIDTH.tdiv 2, vert) } }
  else if trigState = HIGH ∧ ln.active = 1 then
    { line := { ln with active := 0 }
    , toneProgress := toneProgress
    , shared := sh
    , fx := { midi := [MidiMsg.noteOff ln.note MIDINOTE_VELOCITY midiChannel]
            , profile := some WaveProfile.release
            , waveTrigger := none } }
  else
    { line := ln, toneProgress := toneProgress, shared := sh
    , fx := { midi := [], profile := none, waveTrigger := none } }

/-- Notes produced by a sequence of TEAM-mode trigger activations. Each
list entry is the (MIDI channel, is-line-1) origin of one activation; the
note is read off the line state produced by `processTriggerLine` and the
shared `teamToneProgress` is threaded to the next activation (the actor's
own `toneProgress` is irrelevant in TEAM mode). -/
def teamNotes (scale : List Int) : List (Nat × Bool) → Nat → List Int
  | [], _ => []
  | a :: rest, tp =>
      let r := processTriggerLine 1 Mode.team scale a.1 a.2 0 LOW
                 { active := 0, note := 0, timestamp := 0 } 0
                 { lastUserActivity := 0, teamProgress := tp }
      r.line.note :: teamNotes scale rest r.shared.teamProgress

/-! ## Receiver: CoincidenceDetector (`processBigWaves`) -/

/-- The per-player data read and written by `processBigWaves`: the two
trigger timestamps, plus the time at which the player's
`bigWaveTransition` TimeRamp was last (re-)triggered (`none` = never). -/
structure BWPlayer where
  t1 : Nat
  t2 : Nat
  transTime : Option Nat
deriving DecidableEq, Repr

/-- Default `BWPlayer` for out-of-range accesses. -/
def bwDefault : BWPlayer := { t1 := 0, t2 := 0, transTime := none }

/-- Global state touched by `processBigWaves`: the players, the travelling
note index `bigWaveNoteIndex`, the current `bigwaveNote`, the
`bigWaveRunTime`, the shared tonescale array (including its `-1`
sentinel), and — as observables — the MIDI messages sent and the combined
events fired (as actor index pairs). -/
structure BWState where
  players : List BWPlayer
  noteIdx : Nat
  note : Int
  runTime : Nat
  scale : List Int
  midi : List MidiMsg
  events : List (Nat × Nat)
deriving DecidableEq, Repr

/-- The timestamp-proximity test of `processBigWaves` line 420/421 for one
trigger line: both timestamps non-zero and
`abs((long)(t1 - t2)) < BIGWAVE_TIME_THRESHOLD` in C semantics. -/
def tsClose (a b : Nat) : Bool :=
  (a != 0) && (b != 0) && decide (cAbs (int32OfU32 (sub32 a b)) < BIGWAVE_TIME_THRESHOLD)

/-- The full firing condition for a pair of players: trigger-1 timestamps
close, or trigger-2 timestamps close. -/
def bwPairCond (p q : BWPlayer) : Bool := tsClose p.t1 q.t1 || tsClose p.t2 q.t2

/-- Body of the double loop of `processBigWaves` (lines 414–437) for the
pair `ij`: when the condition holds, start the big-wave animation
transition of both players, zero all four trigger timestamps of the two
players, send a note-off for the previous `bigwaveNote`, pick
`tonescale[bigWaveNoteIndex++ % 7]` as the new note, send its note-on on
`BIGWAVE_MIDI_CHANNEL`, and remember `bigWaveRunTime = now`. The fired
pair is appended to `events` (a combined event). -/
def bwPairStep (now : Nat) (st : BWState) (ij : Nat × Nat) : BWState :=
  let p1 := st.players.getD ij.1 bwDefault
  let p2 := st.players.getD ij.2 bwDefault
  if bwPairCond p1 p2 then
    let newNote := st.scale.getD (st.noteIdx % 7) 0
    { st with
      players := (st.players.set ij.1 { t1 := 0, t2 := 0, transTime := some now }).set
                   ij.2 { t1 := 0, t2 := 0, transTime := some now }
      noteIdx := st.noteIdx + 1
      note := newNote
      runTime := now
      midi := st.midi ++
        [ MidiMsg.noteOff st.note MIDINOTE_VELOCITY BIGWAVE_MIDI_CHANNEL
        , MidiMsg.noteOn newNote MIDINOTE_VELOCITY BIGWAVE_MIDI_CHANNEL ]
      events := st.events ++ [ij] }
  else st

/-- The unordered pairs scanned by the double loop, in program order:
`i` from 0, `j` from `i+1`, both below `NUMBER_OF_PLAYERS`. -/
def bwPairs : List (Nat × Nat) :=
  (List.range NUMBER_OF_PLAYERS).flatMap
    (fun i => (List.range' (i + 1) (NUMBER_OF_PLAYERS - (i + 1))).map (fun j => (i, j)))

/-- `processBigWaves(now)` (lines 412–450): the pair scan, then (after the
`applyBigWave` rendering, which only draws into the LED wave layers) the
delayed note-off once `BIGWAVE_MIDINOTE_DURATION` has elapsed since the
last firing. -/
def processBigWaves (now : Nat) (st : BWState) : BWState :=
  let st1 := bwPairs.foldl (bwPairStep now) st
  if st1.runTime > 0 ∧ sub32 now st1.runTime > BIGWAVE_MIDINOTE_DURATION then
    { st1 with runTime := 0
             , midi := st1.midi ++
                 [MidiMsg.noteOff st1.note MIDINOTE_VELOCITY BIGWAVE_MIDI_CHANNEL] }
  else st1

/-- A `BWState` in which actors `i` and `j` carry trigger-1 timestamps `a`
and `b` and every other timestamp of every actor is zero (no trigger
pending), with the scan observables empty. -/
def mkIsolatedBW (i j : Nat) (a b : Nat) (scale : List Int) : BWState :=
  { players := (List.range NUMBER_OF_PLAYERS).map
      (fun k => if k = i then { t1 := a, t2 := 0, transTime := none }
                else if k = j then { t1 := b, t2 := 0, transTime := none }
                else bwDefault)
  , noteIdx := 0, note := 0, runTime := 0, scale := scale
  , midi := [], events := [] }

/-- Re-trigger actors 0 and 1 at time `t`: models both actors' lines
seeing a fresh falling edge, which makes `processPlayers` store `t` into
their `trigger1Timestamp` (externally drivable through the trigger pins). -/
def bwRetrigger (t : Nat) (st : BWState) : BWState :=
  let p0 := { st.players.getD 0 bwDefault with t1 := t }
  let p1 := { st.players.getD 1 bwDefault with t1 := t }
  { st with players := (st.players.set 0 p0).set 1 p1 }

/-- Start state of `processBigWaves` after `wavefx_setup`: no pending
timestamps, `bigWaveNoteIndex 0`, `bigwaveNote 0`, `bigWaveRunTime 0`,
every player's tonescale pointing at `tonescalePentatonicMajor`. -/
def bwInit : BWState :=
  { players := List.replicate NUMBER_OF_PLAYERS bwDefault
  , noteIdx := 0, note := 0, runTime := 0
  , scale := tonescalePentatonicMajor, midi := [], events := [] }

/-- Seven rounds in which actors 0 and 1 trigger simultaneously (time
`10*k+1`) and `processBigWaves` then runs at time `10*k+5`: a concrete
reachable execution of the default (Pentatonic Major, RANDOM,
big-wave-enabled) configuration. -/
def bwSevenCoincidences : BWState :=
  (List.range 7).foldl
    (fun st k => processBigWaves (10 * k + 5) (bwRetrigger (10 * k + 1) st)) bwInit

/-! ## Receiver: mode selection and big-wave gating (`updateMode`, `wavefx_loop`) -/

/-- The globals of `updateMode` relevant to big-wave gating:
`tonescaleSelection`, `bigWaveEnabled` and the debouncing timestamp
`lastModechangeTimestamp`. (`updateMode` also repoints every player's
tonescale, resets the progress counters and sends a control change; those
effects are not needed by the gating claims.) -/
structure ModeState where
  sel : Nat
  bigWaveEnabled : Bool
  lastChange : Nat
deriving DecidableEq, Repr

/-- Initial values: `tonescaleSelection = 0`, `bigWaveEnabled = 1`,
`lastModechangeTimestamp = 0`. -/
def modeInit : ModeState := { sel := 0, bigWaveEnabled := true, lastChange := 0 }

/-- `updateMode(now)` (lines 482–506): on a debounced press of the mode
button, advance `tonescaleSelection` cyclically and set `bigWaveEnabled`
to whether the newly selected tonescale's mode is `MODE_RANDOM`
(lines 500–504). -/
def updateModeStep (now : Nat) (modePinLow : Bool) (st : ModeState) : ModeState :=
  if modePinLow ∧ sub32 now st.lastChange > 2000 then
    let sel := (st.sel + 1) % numTonescales
    { sel := sel
    , bigWaveEnabled := decide (tonescaleModes.getD sel Mode.random = Mode.random)
    , lastChange := now }
  else st

/-- The big-wave call site of `wavefx_loop` (line 671):
`if (bigWaveEnabled) processBigWaves(now);`. -/
def loopBigWavePhase (enabled : Bool) (now : Nat) (st : BWState) : BWState :=
  if enabled then processBigWaves now st else st

/-- Run `updateMode` over a sequence of loop iterations, each supplying
the current time and the mode-button level. -/
def runModeChanges (inputs : List (Nat × Bool)) : ModeState :=
  inputs.foldl (fun st p => updateModeStep p.1 p.2 st) modeInit

/-- A receiver state in which actors 0, 1 and 2 all carry trigger-1
timestamp 100 (three mutually coincident actors), used to probe the pair
scan. -/
def bwThreeCoincident : BWState :=
  { players := [ { t1 := 100, t2 := 0, transTime := none }
               , { t1 := 100, t2 := 0, transTime := none }
               , { t1 := 100, t2 := 0, transTime := none }
               , bwDefault, bwDefault ]
  , noteIdx := 0, note := 0, runTime := 0
  , scale := tonescalePentatonicMajor, midi := [], events := [] }

/-! # Theorems

Helper lemmas first, then one theorem per claim (with witness or
counterexample theorems where required). -/

/-! ## Envelope lemmas (sender) -/

theorem piezoChannelTick_impact (s : Int) (h : s > SENSOR_THRESHOLD) :
    piezoChannelTick s 0 = (10, true) := by
  have hc : s > SENSOR_THRESHOLD ∧ (0 : Int) < PIEZO_TRIGGER_MAXVALUE :=
    ⟨h, by norm_num [PIEZO_TRIGGER_MAXVALUE]⟩
  simp only [piezoChannelTick, if_pos hc]
  norm_num [PIEZO_IMPACT_VAL, PIEZO_DECAY]

theorem piezoRun_zeros (m : Nat) :
    piezoRun (List.replicate m 0) 0 = List.replicate m (0, false) := by
  induction m with
  | zero => rfl
  | succ m ih =>
      simp only [List.replicate_succ, piezoRun]
      rw [show piezoChannelTick 0 0 = (0, false) from rfl]
      simpa using ih

/-- **C3 (counterexample).** The claim predicts (a) that any sample above
the stated threshold 8 raises a zeroed accumulator, and (b) that the
trigger bit stays asserted for 2 ticks. In the code the comparison is
against `SENSOR_THRESHOLD = 40` (so a sample of 9 does nothing), and after
the impact tick the accumulator observable is 10, which is not `>`
`PIEZO_DECAY = 10`, so the second tick zeroes it and clears the bit: the
bit is asserted for exactly one tick, not two. -/
theorem piezo_trigger_two_ticks_counterexample :
    piezoChannelTick 9 0 = (0, false) ∧
    piezoRun [100, 0] 0 = [(10, true), (0, false)] := by decide

/-- **C3 (amended).** A single sample above the effective threshold
(`SENSOR_THRESHOLD = FSR_THRESHOLD = 40`) on a zeroed channel raises the
accumulator to 20, which the same tick's decay brings to 10 with the
trigger bit asserted; the following tick zeroes the accumulator (10 does
not exceed the decay constant 10) and clears the bit, and it stays clear:
the trigger bit is asserted for exactly one tick. -/
theorem piezo_single_impact_one_tick (s : Int) (h : s > SENSOR_THRESHOLD) (n : Nat) :
    piezoRun (s :: List.replicate n 0) 0 = (10, true) :: List.replicate n (0, false) := by
  have h1 : piezoRun (s :: List.replicate n 0) 0 =
      (10, true) :: piezoRun (List.replicate n 0) 10 := by
    simp [piezoRun, piezoChannelTick_impact s h]
  rw [h1]
  cases n with
  | zero => rfl
  | succ m =>
      simp only [List.replicate_succ, piezoRun]
      rw [show piezoChannelTick 0 10 = (0, false) from rfl]
      simpa using piezoRun_zeros m

/-- Witness for the amended C3 at the concrete sample 100 and two
follow-up ticks. -/
theorem piezo_single_impact_one_tick_witness :
    piezoRun [100, 0, 0] 0 = [(10, true), (0, false), (0, false)] :=
  piezo_single_impact_one_tick 100 (by decide) 2

theorem piezoChannelTick_range (s acc : Int) (h0 : 0 ≤ acc) (h1 : acc ≤ 1000)
    (h2 : acc % 10 = 0) :
    0 ≤ (piezoChannelTick s acc).1 ∧ (piezoChannelTick s acc).1 ≤ 1000 ∧
      (piezoChannelTick s acc).1 % 10 = 0 := by
  simp only [piezoChannelTick, SENSOR_THRESHOLD, FSR_THRESHOLD,
    PIEZO_TRIGGER_MAXVALUE, PIEZO_IMPACT_VAL, PIEZO_DECAY]
  split_ifs <;> simp <;> omega

/-- **C5.** Along every run of a channel envelope from its zeroed start,
the accumulator stays within `[0, PIEZO_TRIGGER_MAXVALUE]` after every
sampling tick. (The proof strengthens the invariant with divisibility by
10: reachable accumulator values are multiples of 10, so the transient
overshoot `990 + 20` inside a tick settles at exactly 1000.) -/
theorem piezo_accumulator_bounded (samples : List Int) (p : Int × Bool)
    (hp : p ∈ piezoRun samples 0) :
    0 ≤ p.1 ∧ p.1 ≤ PIEZO_TRIGGER_MAXVALUE := by
  suffices h : ∀ (l : List Int) (acc : Int), 0 ≤ acc → acc ≤ 1000 → acc % 10 = 0 →
      ∀ q ∈ piezoRun l acc, 0 ≤ q.1 ∧ q.1 ≤ 1000 ∧ q.1 % 10 = 0 by
    have := h samples 0 le_rfl (by norm_num) (by norm_num) p hp
    exact ⟨this.1, this.2.1⟩
  intro l
  induction l with
  | nil => intro acc _ _ _ q hq; simp [piezoRun] at hq
  | cons s rest ih =>
      intro acc ha0 ha1 ha2 q hq
      simp only [piezoRun, List.mem_cons] at hq
      rcases hq with rfl | hq
      · exact piezoChannelTick_range s acc ha0 ha1 ha2
      · have hr := piezoChannelTick_range s acc ha0 ha1 ha2
        exact ih _ hr.1 hr.2.1 hr.2.2 q hq

/-- Witness for C5: the accumulator value 10 observed after an impact on
the two-sample run `[100, 0]` lies in the allowed range. -/
theorem piezo_accumulator_bounded_witness :
    0 ≤ ((10 : Int), true).1 ∧ ((10 : Int), true).1 ≤ PIEZO_TRIGGER_MAXVALUE :=
  piezo_accumulator_bounded [100, 0] (10, true) (by decide)

/-! ## TriggerLink fallback (C2) -/

/-- **C2.** Whenever the register's last reception is at least
`EXTERNAL_TRIGGER_ACTIVE_PERIOD` old (in the code's own wraparound
subtraction `now - flagsUpdateTime`), the effective trigger state of every
actor on that register's line is exactly the raw `digitalRead` value of
the actor's pin; only while the reception is fresher does the received
flag bit (active-low: bit set means `LOW`) replace the pin reading. -/
theorem effTriggerState_stale_fallback (pinState now : Nat) (reg : LinkRegState)
    (playerId : Nat) :
    (EXTERNAL_TRIGGER_ACTIVE_PERIOD ≤ sub32 now reg.updateTime →
       effTriggerState pinState now reg playerId = pinState) ∧
    (sub32 now reg.updateTime < EXTERNAL_TRIGGER_ACTIVE_PERIOD →
       effTriggerState pinState now reg playerId =
         if reg.flags.testBit playerId then LOW else HIGH) := by
  constructor
  · intro h
    rw [effTriggerState, if_neg (by omega)]
  · intro h
    rw [effTriggerState, if_pos h]

/-- Witness for C2: a register last updated 2100 ms ago is stale, so the
pin reading (here `HIGH`) wins even though the received flag bit for
player 3 is set; a register updated 1000 ms ago is fresh, so the set bit
forces `LOW`. -/
theorem effTriggerState_stale_fallback_witness :
    effTriggerState HIGH 2100 { flags := 255, updateTime := 0 } 3 = HIGH ∧
    effTriggerState HIGH 1000 { flags := 255, updateTime := 0 } 3 = LOW := by
  constructor
  · exact (effTriggerState_stale_fallback HIGH 2100 ⟨255, 0⟩ 3).1 (by decide)
  · have h := (effTriggerState_stale_fallback HIGH 1000 ⟨255, 0⟩ 3).2 (by decide)
    rw [h]
    decide

/-! ## Big-wave note excursion (C8) -/

set_option maxRecDepth 4000 in
/-- **C8.** A reachable execution emits a note outside the MIDI range
0–127: with the default Pentatonic Major scale (RANDOM mode, big wave
enabled), seven coincidences of actors 0 and 1 walk
`bigWaveNoteIndex++ % 7` up to index 6, which is the scale array's `-1`
end sentinel, and `-1` is sent as a note-on (no clamping anywhere). -/
theorem bigwave_note_out_of_midi_range :
    tonescalePentatonicMajor.getD (6 % 7) 0 = -1 ∧
    MidiMsg.noteOn (-1) MIDINOTE_VELOCITY BIGWAVE_MIDI_CHANNEL ∈ bwSevenCoincidences.midi ∧
    ((-1 : Int) < 0 ∨ (-1 : Int) > 127) := by decide

/-! ## Change-driven transmission (C4) -/

theorem senderChannel_link_fields (st : SenderState) (i : Nat) (v : Int) :
    (senderChannel st i v).last1 = st.last1 ∧ (senderChannel st i v).last2 = st.last2 ∧
    (senderChannel st i v).sent1 = st.sent1 ∧ (senderChannel st i v).sent2 = st.sent2 := by
  obtain ⟨acc, g1, g2, l1, l2, s1, s2⟩ := st
  simp only [senderChannel]
  split <;> simp

theorem senderTick_link_fields (samples : List Int) (st : SenderState) :
    (senderTick samples st).last1 = st.last1 ∧ (senderTick samples st).last2 = st.last2 ∧
    (senderTick samples st).sent1 = st.sent1 ∧ (senderTick samples st).sent2 = st.sent2 := by
  suffices h : ∀ (l : List Nat) (st : SenderState),
      ((l.foldl (fun s i => senderChannel s i (samples.getD i 0)) st).last1 = st.last1 ∧
       (l.foldl (fun s i => senderChannel s i (samples.getD i 0)) st).last2 = st.last2 ∧
       (l.foldl (fun s i => senderChannel s i (samples.getD i 0)) st).sent1 = st.sent1 ∧
       (l.foldl (fun s i => senderChannel s i (samples.getD i 0)) st).sent2 = st.sent2) by
    exact h _ st
  intro l
  induction l with
  | nil => intro st; exact ⟨rfl, rfl, rfl, rfl⟩
  | cons i rest ih =>
      intro st
      have hs := senderChannel_link_fields st i (samples.getD i 0)
      have hr := ih (senderChannel st i (samples.getD i 0))
      simp only [List.foldl_cons]
      exact ⟨hr.1.trans hs.1, hr.2.1.trans hs.2.1,
             hr.2.2.1.trans hs.2.2.1, hr.2.2.2.trans hs.2.2.2⟩

theorem senderReport_eq (st : SenderState) :
    senderReport st = { st with
      sent1 := st.sent1 ++ (if st.last1 = st.g1 then [] else [st.g1])
      last1 := if st.last1 = st.g1 then st.last1 else st.g1
      sent2 := st.sent2 ++ (if st.last2 = st.g2 then [] else [st.g2])
      last2 := if st.last2 = st.g2 then st.last2 else st.g2 } := by
  obtain ⟨acc, g1, g2, l1, l2, s1, s2⟩ := st
  by_cases c1 : l1 = g1 <;> by_cases c2 : l2 = g2 <;> simp [senderReport, c1, c2]

theorem senderReport_lastInv (st : SenderState)
    (h1 : st.last1 = st.sent1.getLastD 0) (h2 : st.last2 = st.sent2.getLastD 128) :
    (senderReport st).last1 = (senderReport st).sent1.getLastD 0 ∧
    (senderReport st).last2 = (senderReport st).sent2.getLastD 128 := by
  rw [senderReport_eq]
  constructor
  · show (if st.last1 = st.g1 then st.last1 else st.g1) =
        (st.sent1 ++ (if st.last1 = st.g1 then [] else [st.g1])).getLastD 0
    by_cases c1 : st.last1 = st.g1
    · rw [if_pos c1, if_pos c1, List.append_nil]; exact h1
    · rw [if_neg c1, if_neg c1, List.getLastD_concat]
  · show (if st.last2 = st.g2 then st.last2 else st.g2) =
        (st.sent2 ++ (if st.last2 = st.g2 then [] else [st.g2])).getLastD 128
    by_cases c2 : st.last2 = st.g2
    · rw [if_pos c2, if_pos c2, List.append_nil]; exact h2
    · rw [if_neg c2, if_neg c2, List.getLastD_concat]

theorem runSender_lastInv (inputs : List (List Int × Bool)) :
    (runSender inputs).last1 = (runSender inputs).sent1.getLastD 0 ∧
    (runSender inputs).last2 = (runSender inputs).sent2.getLastD 128 := by
  suffices h : ∀ (l : List (List Int × Bool)) (st : SenderState),
      st.last1 = st.sent1.getLastD 0 → st.last2 = st.sent2.getLastD 128 →
      ((l.foldl (fun st p => senderLoopStep p.1 p.2 st) st).last1 =
         (l.foldl (fun st p => senderLoopStep p.1 p.2 st) st).sent1.getLastD 0 ∧
       (l.foldl (fun st p => senderLoopStep p.1 p.2 st) st).last2 =
         (l.foldl (fun st p => senderLoopStep p.1 p.2 st) st).sent2.getLastD 128) by
    exact h inputs senderInit rfl rfl
  intro l
  induction l with
  | nil => intro st ha hb; exact ⟨ha, hb⟩
  | cons p rest ih =>
      intro st ha hb
      simp only [List.foldl_cons]
      have ht := senderTick_link_fields p.1 st
      have ha1 : (senderTick p.1 st).last1 = (senderTick p.1 st).sent1.getLastD 0 := by
        rw [ht.1, ht.2.2.1]; exact ha
      have hb1 : (senderTick p.1 st).last2 = (senderTick p.1 st).sent2.getLastD 128 := by
        rw [ht.2.1, ht.2.2.2]; exact hb
      unfold senderLoopStep
      by_cases hrep : p.2 = true
      · rw [if_pos hrep]
        have hR := senderReport_lastInv (senderTick p.1 st) ha1 hb1
        exact ih _ hR.1 hR.2
      · rw [if_neg hrep]
        exact ih _ ha1 hb1

/-- **C4.** At an arbitrary reporting tick (any history of loop
iterations, then the tick's channel scan), each group register is written
to Serial1 as a single byte if and only if its current value differs from
the value most recently transmitted for that register (before any
transmission, the register's power-on value — 0 for group 1, 0x80 for
group 2 — counts as last transmitted, matching `lastTrigger1Group` /
`lastTrigger2Group` initialisation). -/
theorem sender_change_driven (inputs : List (List Int × Bool)) (samples : List Int) :
    (senderReport (senderBeforeReport inputs samples)).sent1 =
      (senderBeforeReport inputs samples).sent1 ++
        (if (senderBeforeReport inputs samples).sent1.getLastD 0 =
            (senderBeforeReport inputs samples).g1
         then [] else [(senderBeforeReport inputs samples).g1]) ∧
    (senderReport (senderBeforeReport inputs samples)).sent2 =
      (senderBeforeReport inputs samples).sent2 ++
        (if (senderBeforeReport inputs samples).sent2.getLastD 128 =
            (senderBeforeReport inputs samples).g2
         then [] else [(senderBeforeReport inputs samples).g2]) := by
  have ht := senderTick_link_fields samples (runSender inputs)
  have hrun := runSender_lastInv inputs
  have ha1 : (senderBeforeReport inputs samples).last1 =
      (senderBeforeReport inputs samples).sent1.getLastD 0 := by
    show (senderTick samples (runSender inputs)).last1 = _
    rw [ht.1]
    show _ = (senderTick samples (runSender inputs)).sent1.getLastD 0
    rw [ht.2.2.1]; exact hrun.1
  have hb1 : (senderBeforeReport inputs samples).last2 =
      (senderBeforeReport inputs samples).sent2.getLastD 128 := by
    show (senderTick samples (runSender inputs)).last2 = _
    rw [ht.2.1]
    show _ = (senderTick samples (runSender inputs)).sent2.getLastD 128
    rw [ht.2.2.2]; exact hrun.2
  rw [senderReport_eq, ha1, hb1]
  constructor <;> simp

/-! ## Group-register bit invariant (C9) -/

theorem bitOpsU8_low : ∀ g, g < 32 → ∀ b, b < 5 →
    setBitU8 g b < 32 ∧ clearBitU8 g b < 32 := by decide

theorem bitOpsU8_high : ∀ g, g < 160 → 128 ≤ g → ∀ b, b < 5 →
    128 ≤ setBitU8 g b ∧ setBitU8 g b < 160 ∧
    128 ≤ clearBitU8 g b ∧ clearBitU8 g b < 160 := by decide

theorem senderChannel_regInv (st : SenderState) (i : Nat) (v : Int) (hi : i < 10)
    (h1 : st.g1 < 32) (h2 : 128 ≤ st.g2) (h3 : st.g2 < 160) :
    (senderChannel st i v).g1 < 32 ∧ 128 ≤ (senderChannel st i v).g2 ∧
      (senderChannel st i v).g2 < 160 := by
  have hb : i / 2 < 5 := by omega
  obtain ⟨acc, g1, g2, l1, l2, s1, s2⟩ := st
  simp only at h1 h2 h3
  simp only [senderChannel]
  by_cases hm : i % 2 = 1
  · rw [if_pos hm]
    by_cases hr : (piezoChannelTick v (acc.getD i 0)).2
    · simp only [hr, if_true]
      exact ⟨h1, (bitOpsU8_high g2 h3 h2 _ hb).1, (bitOpsU8_high g2 h3 h2 _ hb).2.1⟩
    · simp only [hr, if_false, Bool.false_eq_true]
      exact ⟨h1, (bitOpsU8_high g2 h3 h2 _ hb).2.2.1, (bitOpsU8_high g2 h3 h2 _ hb).2.2.2⟩
  · rw [if_neg hm]
    by_cases hr : (piezoChannelTick v (acc.getD i 0)).2
    · simp only [hr, if_true]
      exact ⟨(bitOpsU8_low g1 h1 _ hb).1, h2, h3⟩
    · simp only [hr, if_false, Bool.false_eq_true]
      exact ⟨(bitOpsU8_low g1 h1 _ hb).2, h2, h3⟩

theorem senderTick_regInv (samples : List Int) (st : SenderState)
    (h1 : st.g1 < 32) (h2 : 128 ≤ st.g2) (h3 : st.g2 < 160) :
    (senderTick samples st).g1 < 32 ∧ 128 ≤ (senderTick samples st).g2 ∧
      (senderTick samples st).g2 < 160 := by
  suffices h : ∀ (l : List Nat), (∀ i ∈ l, i < 10) → ∀ st : SenderState,
      st.g1 < 32 → 128 ≤ st.g2 → st.g2 < 160 →
      ((l.foldl (fun s i => senderChannel s i (samples.getD i 0)) st).g1 < 32 ∧
       128 ≤ (l.foldl (fun s i => senderChannel s i (samples.getD i 0)) st).g2 ∧
       (l.foldl (fun s i => senderChannel s i (samples.getD i 0)) st).g2 < 160) by
    refine h (List.range (SENDER_PLAYERS * 2)) ?_ st h1 h2 h3
    intro i hi
    have := List.mem_range.mp hi
    simpa [SENDER_PLAYERS] using this
  intro l
  induction l with
  | nil => intro _ st a b c; exact ⟨a, b, c⟩
  | cons i rest ih =>
      intro hmem st a b c
      simp only [List.foldl_cons]
      have hi : i < 10 := hmem i (List.mem_cons_self i rest)
      have hstep := senderChannel_regInv st i (samples.getD i 0) hi a b c
      exact ih (fun x hx => hmem x (List.mem_cons_of_mem i hx)) _
        hstep.1 hstep.2.1 hstep.2.2

theorem senderReport_groups (st : SenderState) :
    (senderReport st).g1 = st.g1 ∧ (senderReport st).g2 = st.g2 := by
  rw [senderReport_eq]
  exact ⟨rfl, rfl⟩

theorem runSender_regInv (inputs : List (List Int × Bool)) :
    (runSender inputs).g1 < 32 ∧ 128 ≤ (runSender inputs).g2 ∧
      (runSender inputs).g2 < 160 := by
  suffices h : ∀ (l : List (List Int × Bool)) (st : SenderState),
      st.g1 < 32 → 128 ≤ st.g2 → st.g2 < 160 →
      ((l.foldl (fun st p => senderLoopStep p.1 p.2 st) st).g1 < 32 ∧
       128 ≤ (l.foldl (fun st p => senderLoopStep p.1 p.2 st) st).g2 ∧
       (l.foldl (fun st p => senderLoopStep p.1 p.2 st) st).g2 < 160) by
    exact h inputs senderInit (by norm_num [senderInit]) (by norm_num [senderInit])
      (by norm_num [senderInit])
  intro l
  induction l with
  | nil => intro st a b c; exact ⟨a, b, c⟩
  | cons p rest ih =>
      intro st a b c
      simp only [List.foldl_cons]
      have ht := senderTick_regInv p.1 st a b c
      have hstep : (senderLoopStep p.1 p.2 st).g1 < 32 ∧
          128 ≤ (senderLoopStep p.1 p.2 st).g2 ∧ (senderLoopStep p.1 p.2 st).g2 < 160 := by
        unfold senderLoopStep
        by_cases hrep : p.2 = true
        · rw [if_pos hrep]
          have hg := senderReport_groups (senderTick p.1 st)
          rw [hg.1, hg.2]
          exact ht
        · rw [if_neg hrep]
          exact ht
      exact ih _ hstep.1 hstep.2.1 hstep.2.2

theorem testBitFacts_low : ∀ g, g < 32 →
    Nat.testBit g 7 = false ∧ Nat.testBit g 5 = false ∧ Nat.testBit g 6 = false := by
  decide

theorem testBitFacts_high : ∀ g, g < 160 → 128 ≤ g →
    Nat.testBit g 7 = true ∧ Nat.testBit g 5 = false ∧ Nat.testBit g 6 = false := by
  decide

/-- **C9.** After any number of sender loop iterations with any inputs,
group register 2 has its most significant bit set and group register 1
has its MSB clear, and all bits above the five per-actor trigger bits —
other than register 2's MSB — are clear in both registers (the range
facts `g1 < 32` and `128 ≤ g2 < 160` say exactly that all bits ≥ 5 except
register 2's bit 7 are zero). The MSB therefore discriminates the two
registers on the wire, as the receiver's dispatch assumes. -/
theorem sender_register_msb_invariant (inputs : List (List Int × Bool)) :
    (runSender inputs).g1 < 32 ∧
    128 ≤ (runSender inputs).g2 ∧ (runSender inputs).g2 < 160 ∧
    (runSender inputs).g1.testBit 7 = false ∧
    (runSender inputs).g2.testBit 7 = true ∧
    (runSender inputs).g1.testBit 5 = false ∧
    (runSender inputs).g1.testBit 6 = false ∧
    (runSender inputs).g2.testBit 5 = false ∧
    (runSender inputs).g2.testBit 6 = false := by
  have h := runSender_regInv inputs
  have hl := testBitFacts_low _ h.1
  have hh := testBitFacts_high _ h.2.2 h.2.1
  exact ⟨h.1, h.2.1, h.2.2, hl.1, hh.1, hl.2.1, hl.2.2, hh.2.1, hh.2.2⟩

/-! ## Big-wave gating by mode (C10) -/

theorem runModeChanges_enabled (inputs : List (Nat × Bool)) :
    (runModeChanges inputs).bigWaveEnabled =
      decide (tonescaleModes.getD (runModeChanges inputs).sel Mode.random = Mode.random) := by
  suffices h : ∀ (l : List (Nat × Bool)) (st : ModeState),
      st.bigWaveEnabled = decide (tonescaleModes.getD st.sel Mode.random = Mode.random) →
      (l.foldl (fun st p => updateModeStep p.1 p.2 st) st).bigWaveEnabled =
        decide (tonescaleModes.getD
          (l.foldl (fun st p => updateModeStep p.1 p.2 st) st).sel Mode.random = Mode.random) by
    exact h inputs modeInit (by decide)
  intro l
  induction l with
  | nil => intro st h; exact h
  | cons p rest ih =>
      intro st h
      simp only [List.foldl_cons]
      refine ih _ ?_
      unfold updateModeStep
      by_cases hc : p.2 = true ∧ sub32 p.1 st.lastChange > 2000
      · rw [if_pos hc]
      · rw [if_neg hc]; exact h

/-- **C10.** The combined-event scan runs only behind the
`if (bigWaveEnabled)` guard of `wavefx_loop`, and after any sequence of
(debounced) mode-button presses `bigWaveEnabled` holds exactly when the
currently selected tonescale's mode is `MODE_RANDOM`; consequently in
TEAM and CANON modes the big-wave phase of the loop leaves the
coincidence state untouched — no combined event can fire, regardless of
the players' trigger timestamps. -/
theorem bigwave_enabled_iff_random_mode (inputs : List (Nat × Bool)) :
    ((runModeChanges inputs).bigWaveEnabled = true ↔
       tonescaleModes.getD (runModeChanges inputs).sel Mode.random = Mode.random) ∧
    (∀ (now : Nat) (bw : BWState),
       tonescaleModes.getD (runModeChanges inputs).sel Mode.random ≠ Mode.random →
       loopBigWavePhase (runModeChanges inputs).bigWaveEnabled now bw = bw) := by
  have h := runModeChanges_enabled inputs
  constructor
  · rw [h]
    exact decide_eq_true_iff
  · intro now bw hne
    have hfalse : (runModeChanges inputs).bigWaveEnabled = false := by
      rw [h]
      exact decide_eq_false hne
    rw [hfalse]
    rfl

/-- Witness for C10: after two mode-button presses the selection is 2
(Kalimba Team 1, TEAM mode) and the big-wave phase is a no-op on the
initial coincidence state. -/
theorem bigwave_enabled_iff_random_mode_witness :
    loopBigWavePhase (runModeChanges [(3000, true), (6000, true)]).bigWaveEnabled 9000
      bwInit = bwInit :=
  (bigwave_enabled_iff_random_mode [(3000, true), (6000, true)]).2 9000 bwInit (by decide)

/-! ## Per-line trigger state machine (C7) -/

/-- **C7.** For every player line, in every mode: a (single) note-on is
emitted exactly when the effective trigger level is `LOW` while the line
is inactive (the INACTIVE→ACTIVE falling edge) — and then the line
records the activation timestamp, switches to the sustain wave profile
and goes active; a note-off for the previously chosen note is emitted
exactly when the level is `HIGH` while the line is active (the
ACTIVE→INACTIVE edge) — switching to the release profile; and when the
line holds steady in either state, the whole step is the identity: no
MIDI message, no wave-parameter change, no wave trigger, no state
change. -/
theorem trigger_line_edge_behavior (now : Nat) (mode : Mode) (scale : List Int)
    (ch : Nat) (isL1 : Bool) (rv : Int) (trig : Nat)
    (ln : PlayerLineState) (tp : Nat) (sh : SharedState) :
    let r := processTriggerLine now mode scale ch isL1 rv trig ln tp sh
    (r.fx.midi = [MidiMsg.noteOn r.line.note MIDINOTE_VELOCITY ch] ↔
       trig = LOW ∧ ln.active = 0) ∧
    (r.fx.midi = [MidiMsg.noteOff ln.note MIDINOTE_VELOCITY ch] ↔
       trig = HIGH ∧ ln.active = 1) ∧
    (trig = LOW ∧ ln.active = 0 →
       r.line.active = 1 ∧ r.line.timestamp = now ∧
       r.fx.profile = some WaveProfile.sustain ∧ r.shared.lastUserActivity = now) ∧
    (trig = HIGH ∧ ln.active = 1 →
       r.line = { ln with active := 0 } ∧ r.fx.profile = some WaveProfile.release) ∧
    (¬(trig = LOW ∧ ln.active = 0) → ¬(trig = HIGH ∧ ln.active = 1) →
       r = { line := ln, toneProgress := tp, shared := sh
           , fx := { midi := [], profile := none, waveTrigger := none } }) := by
  intro r
  by_cases h1 : trig = LOW ∧ ln.active = 0
  · have h2 : ¬(trig = HIGH ∧ ln.active = 1) := by
      rintro ⟨hH, _⟩
      rw [h1.1] at hH
      exact absurd hH (by decide)
    have hr : r = processTriggerLine now mode scale ch isL1 rv trig ln tp sh := rfl
    rw [processTriggerLine.eq_def, if_pos h1] at hr
    cases mode <;>
      simp only [hr] <;>
      refine ⟨by simp [h1], ?_, fun _ => by simp, fun hc => absurd hc h2,
              fun hc _ => absurd h1 hc⟩ <;>
      simp [h2]
  · by_cases h2 : trig = HIGH ∧ ln.active = 1
    · have hr : r = processTriggerLine now mode scale ch isL1 rv trig ln tp sh := rfl
      rw [processTriggerLine.eq_def, if_neg h1, if_pos h2] at hr
      refine ⟨?_, ?_, fun hc => absurd hc h1, fun _ => ?_, fun _ hc => absurd h2 hc⟩
      · rw [hr]
        simp [h1]
      · rw [hr]
        simp [h2]
      · rw [hr]
        exact ⟨rfl, rfl⟩
    · have hr : r = processTriggerLine now mode scale ch isL1 rv trig ln tp sh := rfl
      rw [processTriggerLine.eq_def, if_neg h1, if_neg h2] at hr
      refine ⟨?_, ?_, fun hc => absurd hc h1, fun hc => absurd hc h2, fun _ _ => hr⟩
      · rw [hr]
        simp [h1]
      · rw [hr]
        simp [h2]

/-- Witness for C7 at concrete inputs: a steady step (line already active,
level still `LOW`) changes nothing and emits nothing. -/
theorem trigger_line_edge_behavior_witness :
    processTriggerLine 5 Mode.team [60, -1] 1 true 0 LOW
        { active := 1, note := 60, timestamp := 2 } 0
        { lastUserActivity := 2, teamProgress := 1 } =
      { line := { active := 1, note := 60, timestamp := 2 }
      , toneProgress := 0
      , shared := { lastUserActivity := 2, teamProgress := 1 }
      , fx := { midi := [], profile := none, waveTrigger := none } } :=
  (trigger_line_edge_behavior 5 Mode.team [60, -1] 1 true 0 LOW
      { active := 1, note := 60, timestamp := 2 } 0
      { lastUserActivity := 2, teamProgress := 1 }).2.2.2.2
    (by decide) (by decide)

/-! ## TEAM-mode sequencing (C6) -/

theorem processTriggerLine_team_step (scale : List Int) (ch : Nat) (isL1 : Bool)
    (tp : Nat) :
    (processTriggerLine 1 Mode.team scale ch isL1 0 LOW
        { active := 0, note := 0, timestamp := 0 } 0
        { lastUserActivity := 0, teamProgress := tp }).line.note =
      scale.getD (tp % getTonescaleSize scale) 0 ∧
    (processTriggerLine 1 Mode.team scale ch isL1 0 LOW
        { active := 0, note := 0, timestamp := 0 } 0
        { lastUserActivity := 0, teamProgress := tp }).shared.teamProgress =
      (if tp + 1 ≥ getTonescaleSize scale then 0 else tp + 1) := by
  rw [processTriggerLine.eq_def, if_pos (by exact ⟨rfl, rfl⟩)]
  exact ⟨rfl, rfl⟩

theorem teamNotes_from (scale : List Int) (h : 0 < getTonescaleSize scale) :
    ∀ (actors : List (Nat × Bool)) (tp : Nat), tp < getTonescaleSize scale →
      teamNotes scale actors tp =
        (List.range actors.length).map
          (fun k => scale.getD ((tp + k) % getTonescaleSize scale) 0) := by
  intro actors
  induction actors with
  | nil => intro tp _; rfl
  | cons a rest ih =>
      intro tp htp
      have hstep := processTriggerLine_team_step scale a.1 a.2 tp
      have hnote : (processTriggerLine 1 Mode.team scale a.1 a.2 0 LOW
          { active := 0, note := 0, timestamp := 0 } 0
          { lastUserActivity := 0, teamProgress := tp }).line.note =
          scale.getD ((tp + 0) % getTonescaleSize scale) 0 := by
        rw [hstep.1, Nat.add_zero]
      have hprog : (processTriggerLine 1 Mode.team scale a.1 a.2 0 LOW
          { active := 0, note := 0, timestamp := 0 } 0
          { lastUserActivity := 0, teamProgress := tp }).shared.teamProgress =
          (tp + 1) % getTonescaleSize scale := by
        rw [hstep.2]
        split
        · next hc =>
            have he : tp + 1 = getTonescaleSize scale := by omega
            rw [he, Nat.mod_self]
        · next hc =>
            exact (Nat.mod_eq_of_lt (by omega)).symm
      have hlt : (tp + 1) % getTonescaleSize scale < getTonescaleSize scale :=
        Nat.mod_lt _ h
      show (processTriggerLine 1 Mode.team scale a.1 a.2 0 LOW
          { active := 0, note := 0, timestamp := 0 } 0
          { lastUserActivity := 0, teamProgress := tp }).line.note ::
        teamNotes scale rest (processTriggerLine 1 Mode.team scale a.1 a.2 0 LOW
          { active := 0, note := 0, timestamp := 0 } 0
          { lastUserActivity := 0, teamProgress := tp }).shared.teamProgress = _
      rw [hnote, hprog, ih _ hlt]
      simp only [List.length_cons]
      rw [List.range_succ_eq_map, List.map_cons, List.map_map]
      congr 1
      apply List.map_congr_left
      intro k _
      simp only [Function.comp_apply]
      rw [Nat.mod_add_mod]
      congr 2
      omega

/-- **C6.** In TEAM mode, starting from the reset shared counter
`teamToneProgress = 0`, `N` consecutive trigger activations — from any mix
of actors and lines (each list entry names the triggering actor's MIDI
channel and line) — produce the notes at scale indices
`0, 1, ..., N-1` modulo the scale length, in that order. -/
theorem team_mode_note_sequence (scale : List Int) (h : 0 < getTonescaleSize scale)
    (actors : List (Nat × Bool)) :
    teamNotes scale actors 0 =
      (List.range actors.length).map
        (fun k => scale.getD (k % getTonescaleSize scale) 0) := by
  rw [teamNotes_from scale h actors 0 h]
  apply List.map_congr_left
  intro k _
  rw [Nat.zero_add]

/-- Witness for C6: the spec's own scenario — scale `[0,2,4,5,7]`
(length 5, stored with its `-1` sentinel), four triggers from four
different actors and lines yield notes `0, 2, 4, 5` in order. -/
theorem team_mode_note_sequence_witness :
    teamNotes [0, 2, 4, 5, 7, -1] [(1, true), (2, false), (3, true), (4, false)] 0 =
      [0, 2, 4, 5] :=
  (team_mode_note_sequence [0, 2, 4, 5, 7, -1] (by decide)
    [(1, true), (2, false), (3, true), (4, false)]).trans (by decide)

/-! ## Coincidence detection (C1) -/

theorem cAbs_int32OfU32_sub32 (a b : Nat) (ha : a < u32Mod) (hb : b < u32Mod)
    (hd : Nat.dist a b < 2147483648) :
    cAbs (int32OfU32 (sub32 a b)) = (Nat.dist a b : Int) := by
  unfold cAbs int32OfU32 sub32 wrap32 u32Mod at *
  unfold Nat.dist at *
  split_ifs <;> omega

theorem tsClose_true (a b : Nat) (ha : a ≠ 0) (hb : b ≠ 0)
    (ha32 : a < u32Mod) (hb32 : b < u32Mod) (hd : Nat.dist a b < 20) :
    tsClose a b = true := by
  have habs := cAbs_int32OfU32_sub32 a b ha32 hb32 (by omega)
  unfold tsClose
  rw [habs]
  simp only [BIGWAVE_TIME_THRESHOLD, bne_iff_ne, Bool.and_eq_true, decide_eq_true_iff]
  refine ⟨⟨ha, hb⟩, ?_⟩
  exact_mod_cast hd

theorem tsClose_false (a b : Nat) (ha32 : a < u32Mod) (hb32 : b < u32Mod)
    (hd : 20 ≤ Nat.dist a b) (hd31 : Nat.dist a b < 2147483648) :
    tsClose a b = false := by
  have habs := cAbs_int32OfU32_sub32 a b ha32 hb32 hd31
  unfold tsClose
  rw [habs]
  simp only [BIGWAVE_TIME_THRESHOLD, Bool.and_eq_false_iff, decide_eq_false_iff_not, not_lt]
  right
  exact_mod_cast hd

theorem tsClose_zero_left (b : Nat) : tsClose 0 b = false := rfl

theorem tsClose_zero_right (a : Nat) : tsClose a 0 = false := by
  simp [tsClose]

theorem bwPairCond_left_zero (p q : BWPlayer) (h1 : p.t1 = 0) (h2 : p.t2 = 0) :
    bwPairCond p q = false := by
  rw [bwPairCond, h1, h2, tsClose_zero_left, tsClose_zero_left]
  rfl

theorem bwPairCond_right_zero (p q : BWPlayer) (h1 : q.t1 = 0) (h2 : q.t2 = 0) :
    bwPairCond p q = false := by
  rw [bwPairCond, h1, h2, tsClose_zero_right, tsClose_zero_right]
  rfl

theorem bwPairStep_skip (now : Nat) (st : BWState) (p : Nat × Nat)
    (h : bwPairCond (st.players.getD p.1 bwDefault) (st.players.getD p.2 bwDefault) = false) :
    bwPairStep now st p = st := by
  simp only [bwPairStep]
  rw [h]
  rfl

theorem foldl_bwPairStep_skip (now : Nat) (L : List (Nat × Nat)) (st : BWState)
    (h : ∀ p ∈ L, bwPairCond (st.players.getD p.1 bwDefault)
           (st.players.getD p.2 bwDefault) = false) :
    L.foldl (bwPairStep now) st = st := by
  induction L with
  | nil => rfl
  | cons p rest ih =>
      rw [List.foldl_cons, bwPairStep_skip now st p (h p (List.mem_cons_self p rest))]
      exact ih (fun q hq => h q (List.mem_cons_of_mem p hq))

theorem bwPairs_eq : bwPairs =
    [(0, 1), (0, 2), (0, 3), (0, 4), (1, 2), (1, 3), (1, 4), (2, 3), (2, 4), (3, 4)] := by
  rfl

theorem bwPairs_mem_bounds (p : Nat × Nat) (hp : p ∈ bwPairs) :
    p.1 < p.2 ∧ p.2 < NUMBER_OF_PLAYERS := by
  rw [bwPairs_eq] at hp
  fin_cases hp <;> decide

theorem bwPairs_mem_of (i j : Nat) (hij : i < j) (hj : j < NUMBER_OF_PLAYERS) :
    (i, j) ∈ bwPairs := by
  rw [bwPairs_eq]
  have hj5 : j < 5 := hj
  interval_cases j <;> interval_cases i <;> decide

theorem bwPairs_nodup : bwPairs.Nodup := by
  rw [bwPairs_eq]
  decide

theorem mkIsolatedBW_players_getD (i j a b : Nat) (scale : List Int) (k : Nat)
    (hk : k < NUMBER_OF_PLAYERS) :
    (mkIsolatedBW i j a b scale).players.getD k bwDefault =
      if k = i then { t1 := a, t2 := 0, transTime := none }
      else if k = j then { t1 := b, t2 := 0, transTime := none }
      else bwDefault := by
  have hk5 : k < (List.range NUMBER_OF_PLAYERS).length := by
    simpa using hk
  simp [mkIsolatedBW, List.getD_eq_getElem?_getD, List.getElem?_map,
    List.getElem?_range hk]

theorem mkIsolatedBW_players_getD_big (i j a b : Nat) (scale : List Int) (k : Nat)
    (hk : ¬k < NUMBER_OF_PLAYERS) :
    (mkIsolatedBW i j a b scale).players.getD k bwDefault = bwDefault := by
  have hge : NUMBER_OF_PLAYERS ≤ k := Nat.le_of_not_lt hk
  simp only [mkIsolatedBW]
  rw [List.getD_eq_getElem?_getD, List.getElem?_eq_none (by simpa using hge),
    Option.getD_none]

theorem sub32_self (a : Nat) : sub32 a a = 0 := by
  unfold sub32 u32Mod
  omega

theorem bwPairStep_fire (now : Nat) (st : BWState) (p : Nat × Nat)
    (h : bwPairCond (st.players.getD p.1 bwDefault) (st.players.getD p.2 bwDefault) = true) :
    bwPairStep now st p =
      { st with
        players := (st.players.set p.1 { t1 := 0, t2 := 0, transTime := some now }).set p.2
          { t1 := 0, t2 := 0, transTime := some now }
        noteIdx := st.noteIdx + 1
        note := st.scale.getD (st.noteIdx % 7) 0
        runTime := now
        midi := st.midi ++
          [ MidiMsg.noteOff st.note MIDINOTE_VELOCITY BIGWAVE_MIDI_CHANNEL
          , MidiMsg.noteOn (st.scale.getD (st.noteIdx % 7) 0) MIDINOTE_VELOCITY
              BIGWAVE_MIDI_CHANNEL ]
        events := st.events ++ [p] } := by
  simp only [bwPairStep]
  rw [h]
  rfl

theorem mkIsolated_skip (i j a b : Nat) (scale : List Int) (hij : i < j)
    (p : Nat × Nat) (hp : p ∈ bwPairs) (hne : ¬(p.1 = i ∧ p.2 = j)) :
    bwPairCond ((mkIsolatedBW i j a b scale).players.getD p.1 bwDefault)
               ((mkIsolatedBW i j a b scale).players.getD p.2 bwDefault) = false := by
  obtain ⟨hxy, hy5⟩ := bwPairs_mem_bounds p hp
  by_cases hxi : p.1 = i
  · have hyj : p.2 ≠ j := fun hyj => hne ⟨hxi, hyj⟩
    have hyi : p.2 ≠ i := by omega
    rw [mkIsolatedBW_players_getD i j a b scale p.2 hy5, if_neg hyi, if_neg hyj]
    exact bwPairCond_right_zero _ _ rfl rfl
  · by_cases hxj : p.1 = j
    · have hyj : p.2 ≠ j := by omega
      have hyi : p.2 ≠ i := by omega
      rw [mkIsolatedBW_players_getD i j a b scale p.2 hy5, if_neg hyi, if_neg hyj]
      exact bwPairCond_right_zero _ _ rfl rfl
    · have hx5 : p.1 < NUMBER_OF_PLAYERS := by omega
      rw [mkIsolatedBW_players_getD i j a b scale p.1 hx5, if_neg hxi, if_neg hxj]
      exact bwPairCond_left_zero _ _ rfl rfl

theorem zeroed_after_double_set (l : List BWPlayer) (i j now : Nat)
    (h : ∀ k, k ≠ i → k ≠ j → (l.getD k bwDefault).t1 = 0 ∧ (l.getD k bwDefault).t2 = 0) :
    ∀ k, (((l.set i { t1 := 0, t2 := 0, transTime := some now }).set j
            { t1 := 0, t2 := 0, transTime := some now }).getD k bwDefault).t1 = 0 ∧
         (((l.set i { t1 := 0, t2 := 0, transTime := some now }).set j
            { t1 := 0, t2 := 0, transTime := some now }).getD k bwDefault).t2 = 0 := by
  intro k
  rw [List.getD_eq_getElem?_getD, List.getElem?_set]
  split
  · split
    · exact ⟨rfl, rfl⟩
    · exact ⟨rfl, rfl⟩
  · next hjk =>
      rw [List.getElem?_set]
      split
      · split
        · exact ⟨rfl, rfl⟩
        · exact ⟨rfl, rfl⟩
      · next hik =>
          rw [← List.getD_eq_getElem?_getD]
          exact h k (fun he => hik he.symm) (fun he => hjk he.symm)

/-- **C1 (counterexample).** Three actors (0, 1, 2) all triggered at
t = 100: every unordered pair of them has coincident (distance 0 < 20)
non-zero timestamps, so the claim demands a combined event per such pair
and all their timestamps zeroed. The scan fires only the first pair
(0, 1) — its firing zeroes actor 0's and 1's timestamps, disqualifying
pairs (0,2) and (1,2) — and actor 2's timestamp survives untouched. -/
theorem bigwave_pairwise_counterexample :
    tsClose 100 100 = true ∧
    (processBigWaves 110 bwThreeCoincident).events = [(0, 1)] ∧
    ((processBigWaves 110 bwThreeCoincident).players.getD 2 bwDefault).t1 = 100 := by
  decide

/-- **C1 (amended).** For a pair of actors `i < j` that is *isolated*
(every other trigger timestamp of every actor is zero): if the two
trigger-1 timestamps are non-zero and differ by less than
`BIGWAVE_TIME_THRESHOLD = 20` ms, the scan fires exactly one combined
event for the pair and zeroes all of both actors' timestamps; if they
differ by at least the window (and by less than `2^31`, where the C
`abs((long)(t1-t2))` idiom is faithful), no event fires and the state is
completely unchanged. In general the pairs are scanned in lexicographic
order and a firing consumes all four timestamps of its two actors, so
overlapping pairs examined later in the same pass no longer qualify (see
the counterexample): the per-pair guarantee holds as stated only for the
pair scanned first among those sharing an actor. -/
theorem bigwave_isolated_pair (i j a b now : Nat) (scale : List Int)
    (hij : i < j) (hj : j < NUMBER_OF_PLAYERS)
    (ha : a ≠ 0) (hb : b ≠ 0) (ha32 : a < u32Mod) (hb32 : b < u32Mod) :
    (Nat.dist a b < 20 →
       (processBigWaves now (mkIsolatedBW i j a b scale)).events = [(i, j)] ∧
       (∀ k : Nat,
         ((processBigWaves now (mkIsolatedBW i j a b scale)).players.getD k bwDefault).t1 = 0 ∧
         ((processBigWaves now (mkIsolatedBW i j a b scale)).players.getD k bwDefault).t2 = 0)) ∧
    (20 ≤ Nat.dist a b → Nat.dist a b < 2147483648 →
       processBigWaves now (mkIsolatedBW i j a b scale) = mkIsolatedBW i j a b scale) := by
  have hi5 : i < NUMBER_OF_PLAYERS := by omega
  have hji : j ≠ i := by omega
  constructor
  · -- coincident: exactly one event, all timestamps consumed
    intro h20
    have hfire : bwPairCond ((mkIsolatedBW i j a b scale).players.getD i bwDefault)
        ((mkIsolatedBW i j a b scale).players.getD j bwDefault) = true := by
      rw [mkIsolatedBW_players_getD i j a b scale i hi5, if_pos rfl,
        mkIsolatedBW_players_getD i j a b scale j hj, if_neg hji, if_pos rfl]
      show (tsClose a b || tsClose 0 0) = true
      rw [tsClose_true a b ha hb ha32 hb32 h20]
      rfl
    have hmem := bwPairs_mem_of i j hij hj
    obtain ⟨L1, L2, hsplit⟩ := List.append_of_mem hmem
    have hnodup := bwPairs_nodup
    rw [hsplit, List.nodup_append] at hnodup
    have hnotL1 : (i, j) ∉ L1 := fun hin =>
      hnodup.2.2 hin (List.mem_cons_self _ L2)
    have hL1skip : L1.foldl (bwPairStep now) (mkIsolatedBW i j a b scale) =
        mkIsolatedBW i j a b scale := by
      refine foldl_bwPairStep_skip now L1 _ (fun p hp => ?_)
      have hpB : p ∈ bwPairs := by
        rw [hsplit]
        exact List.mem_append_left _ hp
      refine mkIsolated_skip i j a b scale hij p hpB (fun hpe => ?_)
      have hpij : p = (i, j) := by
        rw [Prod.ext_iff]
        exact hpe
      exact hnotL1 (hpij ▸ hp)
    have hstepF := bwPairStep_fire now (mkIsolatedBW i j a b scale) (i, j) hfire
    have hz : ∀ k : Nat,
        (((bwPairStep now (mkIsolatedBW i j a b scale) (i, j)).players.getD k bwDefault).t1 = 0 ∧
         ((bwPairStep now (mkIsolatedBW i j a b scale) (i, j)).players.getD k bwDefault).t2 = 0) := by
      rw [hstepF]
      refine zeroed_after_double_set _ i j now (fun k hki hkj => ?_)
      by_cases hk5 : k < NUMBER_OF_PLAYERS
      · rw [mkIsolatedBW_players_getD i j a b scale k hk5, if_neg hki, if_neg hkj]
        exact ⟨rfl, rfl⟩
      · rw [mkIsolatedBW_players_getD_big i j a b scale k hk5]
        exact ⟨rfl, rfl⟩
    have hL2skip : L2.foldl (bwPairStep now) (bwPairStep now (mkIsolatedBW i j a b scale) (i, j)) =
        bwPairStep now (mkIsolatedBW i j a b scale) (i, j) := by
      refine foldl_bwPairStep_skip now L2 _ (fun p hp => ?_)
      exact bwPairCond_left_zero _ _ (hz p.1).1 (hz p.1).2
    have hscan : bwPairs.foldl (bwPairStep now) (mkIsolatedBW i j a b scale) =
        bwPairStep now (mkIsolatedBW i j a b scale) (i, j) := by
      rw [hsplit, List.foldl_append, hL1skip, List.foldl_cons, hL2skip]
    have hrt : (bwPairStep now (mkIsolatedBW i j a b scale) (i, j)).runTime = now := by
      rw [hstepF]
    have hPBW : processBigWaves now (mkIsolatedBW i j a b scale) =
        bwPairStep now (mkIsolatedBW i j a b scale) (i, j) := by
      simp only [processBigWaves]
      rw [hscan, hrt, sub32_self]
      simp [BIGWAVE_MIDINOTE_DURATION]
    rw [hPBW]
    constructor
    · rw [hstepF]
      show (mkIsolatedBW i j a b scale).events ++ [(i, j)] = [(i, j)]
      rfl
    · exact hz
  · -- not coincident: no event, state untouched
    intro h20 h31
    have hskip_all : ∀ p ∈ bwPairs,
        bwPairCond ((mkIsolatedBW i j a b scale).players.getD p.1 bwDefault)
          ((mkIsolatedBW i j a b scale).players.getD p.2 bwDefault) = false := by
      intro p hp
      by_cases hpij : p.1 = i ∧ p.2 = j
      · rw [mkIsolatedBW_players_getD i j a b scale p.1 (by omega),
          if_pos hpij.1, mkIsolatedBW_players_getD i j a b scale p.2 (by
            have := bwPairs_mem_bounds p hp
            omega), if_neg (by omega), if_pos hpij.2]
        show (tsClose a b || tsClose 0 0) = false
        rw [tsClose_false a b ha32 hb32 h20 h31]
        rfl
      · exact mkIsolated_skip i j a b scale hij p hp hpij
    simp only [processBigWaves]
    rw [foldl_bwPairStep_skip now bwPairs _ hskip_all]
    have hrt0 : (mkIsolatedBW i j a b scale).runTime = 0 := rfl
    rw [hrt0]
    simp

/-- Witness for the amended C1: the spec's own scenarios — actors 2 and 4
triggering at 100 ms and 105 ms (window 20 ms) fire exactly one combined
event with all timestamps consumed, while 100 ms and 140 ms fire
nothing and leave the state untouched. -/
theorem bigwave_isolated_pair_witness :
    ((processBigWaves 110 (mkIsolatedBW 2 4 100 105 tonescalePentatonicMajor)).events =
        [(2, 4)] ∧
      ((processBigWaves 110
        (mkIsolatedBW 2 4 100 105 tonescalePentatonicMajor)).players.getD 4 bwDefault).t1 = 0) ∧
    processBigWaves 110 (mkIsolatedBW 2 4 100 140 tonescalePentatonicMajor) =
      mkIsolatedBW 2 4 100 140 tonescalePentatonicMajor := by
  have h1 := (bigwave_isolated_pair 2 4 100 105 110 tonescalePentatonicMajor
    (by decide) (by decide) (by decide) (by decide) (by decide) (by decide)).1 (by decide)
  have h2 := (bigwave_isolated_pair 2 4 100 140 110 tonescalePentatonicMajor
    (by decide) (by decide) (by decide) (by decide) (by decide) (by decide)).2
    (by decide) (by decide)
  exact ⟨⟨h1.1, (h1.2 4).1⟩, h2⟩
